import Mathlib

/-!
Verification of the scoped-context registry (src/scoped_context/__init__.py).

The registry keeps, per thread, one LIFO stack per concrete subclass of
`ScopedContext` plus a single classwide LIFO stack shared by every subclass.
All stacks are `queue.LifoQueue` objects whose backing store (`.queue`) is a
Python list: `put` appends at the end, `get(block=False)` pops the last
element and raises `queue.Empty` when the queue is empty.

The embedding below models one thread (the stacks are thread-local, so a
single-thread state is the full observable state for every operation).
Contexts are opaque identities tagged with the identifier of their concrete
class; the Python class hierarchy is a parameter `sub : Nat → Nat → Bool`
where `sub c t` means objects of class `c` are `isinstance` of class `t`.
Lists are kept in Python order: index 0 is the oldest element and the last
element is the top of the stack.
-/

namespace ScopedCtx

/-- Errors surfaced by the library: `NoContextError` raised by the lookup
operations on an empty (filtered) stack, and `queue.Empty` raised by
`LifoQueue.get(block=False)` inside `__exit__` when a stack underflows. -/
inductive Err where
  | noContextError
  | queueEmpty
deriving DecidableEq

/-- A context instance: an opaque identity `id` plus the identifier `cls` of
its concrete class (`type(self)`). -/
structure Ctx where
  id : Nat
  cls : Nat
deriving DecidableEq

/-- The per-thread registry state: the per-class stacks
(`cls._thread_local.stack.queue`, one per concrete subclass, lazily created
empty) and the classwide stack (`_thread_local_classwide.stack.queue`).
Each list is oldest-first; the last element is the top. -/
structure RegState where
  perClass : Nat → List Ctx
  classwide : List Ctx

/-- A fresh thread: every stack is created empty on first access. -/
def RegState.empty : RegState := RegState.mk (fun _ => []) []

/-- `ScopedContext.__enter__`: `self._stack().put(self)` then
`self._classwide_stack().put(self)`, returning `self`. The per-class stack
touched is the one of `type(self)`, i.e. of `x.cls`. -/
def enterCtx (s : RegState) (x : Ctx) : RegState × Ctx :=
  (RegState.mk
    (fun d => if d = x.cls then s.perClass x.cls ++ [x] else s.perClass d)
    (s.classwide ++ [x]),
   x)

/-- `ScopedContext.__exit__`: `self._stack().get(block=False)` then
`self._classwide_stack().get(block=False)`. Each `get` pops the last element
of the backing list, or raises `queue.Empty` if the list is empty; a raise in
the first `get` leaves the classwide stack untouched, a raise in the second
leaves the per-class pop already done. The popped elements are discarded
without an identity check. -/
def exitCtx (s : RegState) (x : Ctx) : RegState × Option Err :=
  if (s.perClass x.cls).isEmpty then (s, some Err.queueEmpty)
  else
    let s1 := RegState.mk
      (fun d => if d = x.cls then (s.perClass x.cls).dropLast else s.perClass d)
      s.classwide
    if s1.classwide.isEmpty then (s1, some Err.queueEmpty)
    else (RegState.mk s1.perClass s1.classwide.dropLast, none)

/-- `ScopedContext.current`: raises `NoContextError` when the per-class stack
is empty (`qsize() == 0`, i.e. the backing list has no last element), else
returns `queue[-1]`, the last element. -/
def current (s : RegState) (c : Nat) : Except Err Ctx :=
  match (s.perClass c).getLast? with
  | none => Except.error Err.noContextError
  | some x => Except.ok x

/-- `ScopedContext.context_stack`: the per-class backing list, oldest first,
last element the current context. This is the value-level view; which object
is returned is modelled by `context_stack_ref`. -/
def context_stack (s : RegState) (c : Nat) : List Ctx := s.perClass c

/-- `get_context_stack` (the same code as
`ScopedContext._classwide_context_stack`): with a filter, the list
comprehension keeps the classwide items for which
`isinstance(item, class_or_tuple)` holds; with no filter it returns the
classwide backing list. A tuple of classes is a list of class identifiers and
isinstance against it is a match against any member under `sub`. -/
def get_context_stack (sub : Nat → Nat → Bool) (s : RegState) :
    Option (List Nat) → List Ctx
  | some ts => s.classwide.filter (fun item => ts.any (fun t => sub item.cls t))
  | none => s.classwide

/-- The isinstance test applied by the filtering code, as a single predicate
over the optional filter: with no filter every item is kept. -/
def isinstanceF (sub : Nat → Nat → Bool) (f : Option (List Nat)) (x : Ctx) :
    Bool :=
  match f with
  | some ts => ts.any (fun t => sub x.cls t)
  | none => true

/-- `get_current_context` (the same code as
`ScopedContext._current_classwide`): the optionally filtered classwide list;
`NoContextError` if it is empty, else its last element `queue[-1]`. -/
def get_current_context (sub : Nat → Nat → Bool) (s : RegState)
    (f : Option (List Nat)) : Except Err Ctx :=
  match (get_context_stack sub s f).getLast? with
  | none => Except.error Err.noContextError
  | some x => Except.ok x

/-- How the body of a with-block terminated: normal completion or a raised
exception identified by a code. -/
inductive Outcome where
  | normal
  | raised (e : Nat)
deriving DecidableEq

/-- The Python with-statement over a context `x`: run `__enter__`, then the
body (which may update the registry and finish normally or raise), then
`__exit__` on every path; `__exit__` returns `None`, so a body exception is
never suppressed and propagates together with any `__exit__` error state. -/
def withScope (s : RegState) (x : Ctx) (body : RegState → RegState × Outcome) :
    RegState × Option Err × Outcome :=
  let s1 := (enterCtx s x).1
  let r := body s1
  let e := exitCtx r.1 x
  (e.1, e.2, r.2)

/-- One registry operation performed by the thread. -/
inductive Op where
  | enterOp (x : Ctx)
  | exitOp (x : Ctx)
deriving DecidableEq

/-- Run one operation: `x.__enter__()` never raises, `x.__exit__()` may. -/
def step (s : RegState) : Op → RegState × Option Err
  | Op.enterOp x => ((enterCtx s x).1, none)
  | Op.exitOp x => exitCtx s x

/-- Run a sequence of operations in order; a raised error aborts the rest of
the sequence. -/
def runOps (s : RegState) : List Op → RegState × Option Err
  | [] => (s, none)
  | op :: rest =>
    match step s op with
    | (s1, none) => runOps s1 rest
    | (s1, some e) => (s1, some e)

/-- The exit precondition of the design (and the discipline with-statements
enforce): every exited context is, at the moment of its exit, the top of the
classwide stack and the top of its own class stack. -/
def nested (s : RegState) : List Op → Bool
  | [] => true
  | Op.enterOp x :: rest => nested (enterCtx s x).1 rest
  | Op.exitOp x :: rest =>
    match s.classwide.getLast?, (s.perClass x.cls).getLast? with
    | some y, some z =>
        decide (y = x) && decide (z = x) && nested (exitCtx s x).1 rest
    | _, _ => false

/-- The dual-stack synchronisation invariant: projecting the classwide stack
onto each exact class gives that class stack. -/
def Sync (s : RegState) : Prop :=
  ∀ c, s.classwide.filter (fun x => decide (x.cls = c)) = s.perClass c

/-- Which object a snapshot operation hands to the caller: the live backing
list of a registry stack, or a freshly allocated list. `context_stack`
returns `cls._stack().queue` itself and the unfiltered `get_context_stack`
returns `_classwide_stack().queue` itself; only the filtered form builds a
new list via a comprehension. -/
inductive Snapshot where
  | aliasPerClass (c : Nat)
  | aliasClasswide
  | freshList (l : List Ctx)
deriving DecidableEq

/-- The object returned by `ScopedContext.context_stack`:
`return cls._stack().queue`, the live backing list of the per-class stack. -/
def context_stack_ref (c : Nat) : Snapshot := Snapshot.aliasPerClass c

/-- The object returned by `get_context_stack`: a fresh list when a filter is
given, the live classwide backing list otherwise. -/
def get_context_stack_ref (sub : Nat → Nat → Bool) (s : RegState) :
    Option (List Nat) → Snapshot
  | some ts =>
      Snapshot.freshList
        (s.classwide.filter (fun item => ts.any (fun t => sub item.cls t)))
  | none => Snapshot.aliasClasswide

/-- Reading the returned sequence in a given registry state. -/
def readSnapshot (s : RegState) : Snapshot → List Ctx
  | Snapshot.aliasPerClass c => s.perClass c
  | Snapshot.aliasClasswide => s.classwide
  | Snapshot.freshList l => l

/-- Replacing the contents of the returned sequence in place (for example
`lst.clear()` or slice assignment): writing through an alias rewrites the
backing registry stack, while writing a fresh list leaves the registry
untouched. -/
def mutateReturned (s : RegState) (r : Snapshot) (l : List Ctx) : RegState :=
  match r with
  | Snapshot.aliasPerClass c =>
      RegState.mk (fun d => if d = c then l else s.perClass d) s.classwide
  | Snapshot.aliasClasswide => RegState.mk s.perClass l
  | Snapshot.freshList _ => s

/-- Class identifiers used in the concrete scenarios. -/
def clsA : Nat := 0

def clsB : Nat := 1

def clsC : Nat := 2

/-- A class that, in the hierarchy `subD`, is a strict subclass of `clsA`. -/
def clsD : Nat := 3

def ctxX : Ctx := Ctx.mk 10 clsA

def ctxY : Ctx := Ctx.mk 11 clsC

def ctxZ : Ctx := Ctx.mk 12 clsB

def ctxW : Ctx := Ctx.mk 13 clsD

/-- A second context of class `clsA`. -/
def ctxX2 : Ctx := Ctx.mk 14 clsA

/-- A third context of class `clsA`. -/
def ctxX3 : Ctx := Ctx.mk 15 clsA

/-- A discrete hierarchy: no concrete class inherits from another, so
isinstance is equality of classes. -/
def subEq : Nat → Nat → Bool := fun c t => decide (c = t)

/-- A hierarchy in which `clsD` inherits from `clsA` and nothing else is
related. -/
def subD : Nat → Nat → Bool :=
  fun c t => decide (c = t) || (decide (c = clsD) && decide (t = clsA))

/-- Active contexts x : A, y : C, z : B, entered in that order. -/
def sXYZ : RegState :=
  (enterCtx (enterCtx (enterCtx RegState.empty ctxX).1 ctxY).1 ctxZ).1

/-- Active contexts x : A, y : C, entered in that order. -/
def sXY : RegState :=
  (enterCtx (enterCtx RegState.empty ctxX).1 ctxY).1

/-! Helper lemmas shared by the claim theorems. -/

/-- The last element of a filtered list is the first match found when
scanning the list from its end. -/
theorem filter_getLast?_eq {α : Type} (p : α → Bool) (l : List α) :
    (l.filter p).getLast? = l.reverse.find? p := by
  induction l using List.reverseRecOn with
  | nil => rfl
  | append_singleton t a ih =>
    rw [List.filter_append, List.reverse_append]
    by_cases hpa : p a = true
    · simp [List.filter_cons, hpa, List.getLast?_concat]
    · simp [List.filter_cons, hpa, ih]

/-- Both branches of `get_context_stack` are the filter by the isinstance
predicate. -/
theorem get_context_stack_eq_filter (sub : Nat → Nat → Bool) (s : RegState)
    (f : Option (List Nat)) :
    get_context_stack sub s f = s.classwide.filter (isinstanceF sub f) := by
  cases f with
  | none =>
    have h1 : s.classwide.filter (isinstanceF sub none) =
        s.classwide.filter (fun _ => true) :=
      List.filter_congr (fun x _ => rfl)
    exact ((h1.trans (List.filter_true s.classwide)).symm)
  | some ts => rfl

/-- Exit directly after enter of the same context restores the previous
state exactly and raises nothing. -/
theorem exit_enter_eq (s : RegState) (x : Ctx) :
    exitCtx (enterCtx s x).1 x = (s, none) := by
  have h1 : ((enterCtx s x).1.perClass x.cls).isEmpty = false := by
    simp [enterCtx]
  have h2 : ((enterCtx s x).1.classwide).isEmpty = false := by
    simp [enterCtx]
  unfold exitCtx
  rw [h1]
  simp only [Bool.false_eq_true, if_false]
  rw [show ((enterCtx s x).1.classwide).isEmpty = false from h2]
  simp only [Bool.false_eq_true, if_false]
  refine Prod.ext ?_ rfl
  show RegState.mk _ _ = s
  have hpc : ∀ d, (if d = x.cls then ((enterCtx s x).1.perClass x.cls).dropLast
      else (enterCtx s x).1.perClass d) = s.perClass d := by
    intro d
    by_cases hd : d = x.cls
    · subst hd
      simp [enterCtx, List.dropLast_concat]
    · simp [enterCtx, hd]
  have hcw : ((enterCtx s x).1.classwide).dropLast = s.classwide := by
    simp [enterCtx, List.dropLast_concat]
  calc RegState.mk
        (fun d => if d = x.cls then ((enterCtx s x).1.perClass x.cls).dropLast
          else (enterCtx s x).1.perClass d)
        ((enterCtx s x).1.classwide).dropLast
      = RegState.mk s.perClass s.classwide := by
        rw [hcw]; congr 1; funext d; exact hpc d
    _ = s := rfl

/-- The empty thread state satisfies the dual-stack invariant. -/
theorem sync_empty : Sync RegState.empty := fun _ => rfl

/-- Enter preserves the dual-stack invariant. -/
theorem sync_enter (s : RegState) (x : Ctx) (h : Sync s) :
    Sync (enterCtx s x).1 := by
  intro c
  by_cases hc : c = x.cls
  · subst hc
    simp [enterCtx, List.filter_append, List.filter_cons, h x.cls]
  · have hcx : ¬ (x.cls = c) := fun h2 => hc h2.symm
    simp [enterCtx, List.filter_append, List.filter_cons, hcx, hc, h c]

/-- Exit of the context on top of both stacks raises nothing and preserves
the dual-stack invariant. -/
theorem sync_exit (s : RegState) (x : Ctx) (h : Sync s)
    (hcw : s.classwide.getLast? = some x)
    (hpc : (s.perClass x.cls).getLast? = some x) :
    (exitCtx s x).2 = none ∧ Sync (exitCtx s x).1 := by
  obtain ⟨cw, hcweq⟩ := List.getLast?_eq_some_iff.mp hcw
  obtain ⟨pc, hpceq⟩ := List.getLast?_eq_some_iff.mp hpc
  have h1 : (s.perClass x.cls).isEmpty = false := by rw [hpceq]; simp
  have h2 : (s.classwide).isEmpty = false := by rw [hcweq]; simp
  have hres : exitCtx s x =
      (RegState.mk
        (fun d => if d = x.cls then (s.perClass x.cls).dropLast
          else s.perClass d)
        s.classwide.dropLast, none) := by
    unfold exitCtx
    rw [h1]
    simp only [Bool.false_eq_true, if_false]
    rw [show (s.classwide).isEmpty = false from h2]
    simp only [Bool.false_eq_true, if_false]
  refine ⟨by rw [hres], ?_⟩
  intro c
  rw [hres]
  show s.classwide.dropLast.filter _ =
    (if c = x.cls then (s.perClass x.cls).dropLast else s.perClass c)
  have hc := h c
  rw [hcweq, List.filter_append, List.filter_cons] at hc
  rw [hcweq, List.dropLast_concat]
  by_cases hcc : c = x.cls
  · subst hcc
    simp at hc
    rw [if_pos rfl, ← hc, List.dropLast_concat]
  · have hxc : ¬ (x.cls = c) := fun h2 => hcc h2.symm
    simp [hxc] at hc
    rw [if_neg hcc]
    exact hc

/-- A trace that respects the nesting discipline never raises and keeps the
dual-stack invariant. -/
theorem runOps_nested (ops : List Op) : ∀ s : RegState, Sync s →
    nested s ops = true →
    (runOps s ops).2 = none ∧ Sync (runOps s ops).1 := by
  induction ops with
  | nil => intro s hs _; exact ⟨rfl, hs⟩
  | cons op rest ih =>
    intro s hs hn
    cases op with
    | enterOp x =>
      exact ih (enterCtx s x).1 (sync_enter s x hs) hn
    | exitOp x =>
      cases hcw : s.classwide.getLast? with
      | none => simp [nested, hcw] at hn
      | some y =>
        cases hpc : (s.perClass x.cls).getLast? with
        | none => simp [nested, hcw, hpc] at hn
        | some z =>
          simp only [nested, hcw, hpc, Bool.and_eq_true, decide_eq_true_eq]
            at hn
          obtain ⟨⟨hyx, hzx⟩, hn'⟩ := hn
          rw [hyx] at hcw
          rw [hzx] at hpc
          have hex := sync_exit s x hs hcw hpc
          cases hE : exitCtx s x with
          | mk s1 e =>
            rw [hE] at hex hn'
            have he : e = none := hex.1
            subst he
            have hred : runOps s (Op.exitOp x :: rest) = runOps s1 rest := by
              simp [runOps, step, hE]
            rw [hred]
            exact ih s1 hex.2 hn'

/-- The nesting discipline is closed under taking a shorter trace. -/
theorem nested_append_left (suf : List Op) : ∀ (pre : List Op) (s : RegState),
    nested s (pre ++ suf) = true → nested s pre = true := by
  intro pre
  induction pre with
  | nil => intro s _; rfl
  | cons op pre' ih =>
    intro s h
    cases op with
    | enterOp x => exact ih (enterCtx s x).1 h
    | exitOp x =>
      cases hcw : s.classwide.getLast? with
      | none => simp [List.cons_append, nested, hcw] at h
      | some y =>
        cases hpc : (s.perClass x.cls).getLast? with
        | none => simp [List.cons_append, nested, hcw, hpc] at h
        | some z =>
          simp only [List.cons_append, nested, hcw, hpc, Bool.and_eq_true,
            decide_eq_true_eq] at h
          obtain ⟨⟨hyx, hzx⟩, h'⟩ := h
          simp only [nested, hcw, hpc, Bool.and_eq_true, decide_eq_true_eq]
          exact ⟨⟨hyx, hzx⟩, ih _ h'⟩

/-! Claim theorems. -/

/-- Claim C1: for nested enter/exit on one concrete subclass, `current` after an
enter returns the just-entered context; a matching exit restores the state
from before the enter exactly, so `current` afterwards returns the
previously entered context, or raises `NoContextError` if none remains. -/
theorem lifo_enter_exit (s : RegState) (x : Ctx) :
    current (enterCtx s x).1 x.cls = Except.ok x ∧
    exitCtx (enterCtx s x).1 x = (s, none) ∧
    (s.perClass x.cls = [] →
      current s x.cls = Except.error Err.noContextError) ∧
    (∀ y, (s.perClass x.cls).getLast? = some y →
      current s x.cls = Except.ok y) := by
  refine ⟨?_, exit_enter_eq s x, ?_, ?_⟩
  · simp [current, enterCtx, List.getLast?_concat]
  · intro h
    simp [current, h]
  · intro y hy
    simp [current, hy]

/-- Witness for C1: enter x then x2 (both of class A); current is x2; the
matching exit restores the one-element state; current is then x again, and
on the empty state current raises. -/
theorem lifo_enter_exit_witness :
    current (enterCtx (enterCtx RegState.empty ctxX).1 ctxX2).1 ctxX2.cls =
      Except.ok ctxX2 ∧
    exitCtx (enterCtx (enterCtx RegState.empty ctxX).1 ctxX2).1 ctxX2 =
      ((enterCtx RegState.empty ctxX).1, none) ∧
    current (enterCtx RegState.empty ctxX).1 ctxX2.cls = Except.ok ctxX ∧
    current RegState.empty ctxX.cls = Except.error Err.noContextError :=
  ⟨(lifo_enter_exit (enterCtx RegState.empty ctxX).1 ctxX2).1,
   (lifo_enter_exit (enterCtx RegState.empty ctxX).1 ctxX2).2.1,
   (lifo_enter_exit (enterCtx RegState.empty ctxX).1 ctxX2).2.2.2 ctxX
     (by decide),
   (lifo_enter_exit RegState.empty ctxX).2.2.1 rfl⟩

/-- Claim C3: `current` on a concrete subclass returns the last element of its
class stack when the stack is non-empty, and raises `NoContextError` exactly
when the stack is empty. -/
theorem current_top_or_error (s : RegState) (c : Nat) :
    (∀ x, (s.perClass c).getLast? = some x → current s c = Except.ok x) ∧
    (s.perClass c = [] ↔ current s c = Except.error Err.noContextError) := by
  constructor
  · intro x hx
    simp [current, hx]
  · constructor
    · intro h
      simp [current, h]
    · intro h
      cases hl : (s.perClass c).getLast? with
      | none => exact List.getLast?_eq_none_iff.mp hl
      | some w => simp [current, hl] at h

/-- Witness for C3: in the state with x entered below y, current of class A
is x; on the fresh state current of class A raises. -/
theorem current_top_or_error_witness :
    current sXY clsA = Except.ok ctxX ∧
    current RegState.empty clsA = Except.error Err.noContextError :=
  ⟨(current_top_or_error sXY clsA).1 ctxX (by decide),
   (current_top_or_error RegState.empty clsA).2.mp rfl⟩

/-- Claim C5: exit on a thread whose stacks are empty — no matching prior enter,
or a double exit — raises the queue.Empty underflow error instead of
silently doing nothing. -/
theorem exit_underflow (s : RegState) (x : Ctx)
    (hpc : s.perClass x.cls = []) (_hcw : s.classwide = []) :
    exitCtx s x = (s, some Err.queueEmpty) ∧
    (runOps RegState.empty
      [Op.enterOp x, Op.exitOp x, Op.exitOp x]).2 = some Err.queueEmpty := by
  constructor
  · unfold exitCtx
    rw [hpc]
    simp
  · have h1 : runOps RegState.empty [Op.enterOp x, Op.exitOp x, Op.exitOp x] =
        runOps RegState.empty [Op.exitOp x] := by
      simp [runOps, step, exit_enter_eq]
    rw [h1]
    simp [runOps, step, exitCtx, RegState.empty]

/-- Witness for C5: exiting on the fresh thread state raises queue.Empty,
and so does the second exit after a single enter of x. -/
theorem exit_underflow_witness :
    exitCtx RegState.empty ctxX = (RegState.empty, some Err.queueEmpty) ∧
    (runOps RegState.empty
      [Op.enterOp ctxX, Op.exitOp ctxX, Op.exitOp ctxX]).2 =
      some Err.queueEmpty :=
  exit_underflow RegState.empty ctxX rfl rfl

/-- Claim C6: a with-scope whose body leaves the stacks as it found them, however
it terminates, pops the context from both stacks before the outcome
propagates: the state after the scope is exactly the state before entry, the
body outcome is passed through unchanged, and current reports absent
afterwards whenever it was absent before. -/
theorem exit_on_unwind (s : RegState) (x : Ctx)
    (body : RegState → RegState × Outcome)
    (hbody : ∀ t, (body t).1 = t) :
    withScope s x body = (s, none, (body (enterCtx s x).1).2) ∧
    (s.perClass x.cls = [] →
      current (withScope s x body).1 x.cls =
        Except.error Err.noContextError) := by
  have h1 : withScope s x body = (s, none, (body (enterCtx s x).1).2) := by
    show ((exitCtx (body (enterCtx s x).1).1 x).1,
          (exitCtx (body (enterCtx s x).1).1 x).2,
          (body (enterCtx s x).1).2) = (s, none, (body (enterCtx s x).1).2)
    rw [hbody (enterCtx s x).1, exit_enter_eq]
  refine ⟨h1, ?_⟩
  intro h
  rw [h1]
  simp [current, h]

/-- Witness for C6: a body that raises exception 7 while not touching the
stacks; the scope returns to the empty state, the exception propagates, and
current raises afterwards. -/
theorem exit_on_unwind_witness :
    withScope RegState.empty ctxX (fun t => (t, Outcome.raised 7)) =
      (RegState.empty, none, Outcome.raised 7) ∧
    current (withScope RegState.empty ctxX
        (fun t => (t, Outcome.raised 7))).1 ctxX.cls =
      Except.error Err.noContextError :=
  ⟨(exit_on_unwind RegState.empty ctxX (fun t => (t, Outcome.raised 7))
      (fun _ => rfl)).1,
   (exit_on_unwind RegState.empty ctxX (fun t => (t, Outcome.raised 7))
      (fun _ => rfl)).2 rfl⟩

/-- Claim C7: snapshots are oldest-entered first with the current context last:
entering a, b, c of one class from a fresh thread makes the class stack
[a, b, c], and entering any three contexts makes the unfiltered classwide
stack those three in chronological order. -/
theorem snapshot_order (C : Nat) (a b c : Ctx)
    (ha : a.cls = C) (hb : b.cls = C) (hc : c.cls = C) :
    context_stack
      (enterCtx (enterCtx (enterCtx RegState.empty a).1 b).1 c).1 C =
      [a, b, c] ∧
    ∀ (x y z : Ctx),
      get_context_stack subEq
        (enterCtx (enterCtx (enterCtx RegState.empty x).1 y).1 z).1 none =
        [x, y, z] := by
  constructor
  · simp [context_stack, enterCtx, RegState.empty, ha, hb, hc]
  · intro x y z
    simp [get_context_stack, enterCtx, RegState.empty]

/-- Witness for C7: three contexts of class A give class stack [x, x2, x3],
and
the interleaving x : A, z : B, x2 : A gives classwide stack [x, z, x2]. -/
theorem snapshot_order_witness :
    context_stack
      (enterCtx (enterCtx (enterCtx RegState.empty ctxX).1 ctxX2).1
        ctxX3).1 clsA = [ctxX, ctxX2, ctxX3] ∧
    get_context_stack subEq
      (enterCtx (enterCtx (enterCtx RegState.empty ctxX).1 ctxZ).1
        ctxX2).1 none = [ctxX, ctxZ, ctxX2] :=
  ⟨(snapshot_order clsA ctxX ctxX2 ctxX3 rfl rfl rfl).1,
   (snapshot_order clsA ctxX ctxX2 ctxX3 rfl rfl rfl).2 ctxX ctxZ ctxX2⟩

/-- Claim C9: enter pushes the context onto its class stack and onto the classwide
stack, leaves every other class stack unchanged, and returns the context
itself. -/
theorem enter_effect (s : RegState) (x : Ctx) (d : Nat) (hd : d ≠ x.cls) :
    (enterCtx s x).1.perClass x.cls = s.perClass x.cls ++ [x] ∧
    (enterCtx s x).1.classwide = s.classwide ++ [x] ∧
    (enterCtx s x).1.perClass d = s.perClass d ∧
    (enterCtx s x).2 = x := by
  refine ⟨?_, rfl, ?_, rfl⟩
  · simp [enterCtx]
  · simp [enterCtx, hd]

/-- Witness for C9: entering x of class A on a fresh thread pushes it on the
A stack and the classwide stack, leaves the B stack empty, and returns x. -/
theorem enter_effect_witness :
    (enterCtx RegState.empty ctxX).1.perClass ctxX.cls =
      RegState.empty.perClass ctxX.cls ++ [ctxX] ∧
    (enterCtx RegState.empty ctxX).1.classwide =
      RegState.empty.classwide ++ [ctxX] ∧
    (enterCtx RegState.empty ctxX).1.perClass clsB =
      RegState.empty.perClass clsB ∧
    (enterCtx RegState.empty ctxX).2 = ctxX :=
  enter_effect RegState.empty ctxX clsB (by decide)

/-- Claim C2: along any trace that respects the nesting discipline of
with-statements, at every point of the sequence, filtering the classwide
stack to the instances of a class A (as get_context_stack does) gives
exactly the class-A stack (as context_stack does), provided the contexts on
the stack are instances of A exactly when their class is A (A is not a
proper ancestor of another class in use). -/
theorem cross_type_projection (sub : Nat → Nat → Bool) (A : Nat)
    (ops pre suf : List Op)
    (hops : ops = pre ++ suf)
    (hwf : nested RegState.empty ops = true)
    (hA : ∀ x ∈ (runOps RegState.empty pre).1.classwide,
        sub x.cls A = decide (x.cls = A)) :
    get_context_stack sub (runOps RegState.empty pre).1 (some [A]) =
      context_stack (runOps RegState.empty pre).1 A := by
  have hpre : nested RegState.empty pre = true :=
    nested_append_left suf pre RegState.empty (hops ▸ hwf)
  have hsync := (runOps_nested pre RegState.empty sync_empty hpre).2
  show (runOps RegState.empty pre).1.classwide.filter
      (fun item => [A].any (fun t => sub item.cls t)) =
    (runOps RegState.empty pre).1.perClass A
  have hcong : (runOps RegState.empty pre).1.classwide.filter
      (fun item => [A].any (fun t => sub item.cls t)) =
      (runOps RegState.empty pre).1.classwide.filter
        (fun item => decide (item.cls = A)) := by
    apply List.filter_congr
    intro x hx
    simp [hA x hx]
  rw [hcong, hsync A]

/-- Witness for C2: the nested trace enter x : A, enter z : B, exit z,
exit x, observed after its first two operations. -/
theorem cross_type_projection_witness :
    get_context_stack subEq
      (runOps RegState.empty [Op.enterOp ctxX, Op.enterOp ctxZ]).1
      (some [clsA]) =
    context_stack
      (runOps RegState.empty [Op.enterOp ctxX, Op.enterOp ctxZ]).1 clsA :=
  cross_type_projection subEq clsA
    [Op.enterOp ctxX, Op.enterOp ctxZ, Op.exitOp ctxZ, Op.exitOp ctxX]
    [Op.enterOp ctxX, Op.enterOp ctxZ] [Op.exitOp ctxZ, Op.exitOp ctxX]
    rfl (by decide) (by decide)

/-- Claim C4: get_current_context returns exactly the first active context found
when scanning the classwide stack from the top that is an instance of the
filter (every context when the filter is omitted), and raises
NoContextError exactly when no active context matches. -/
theorem get_current_context_spec (sub : Nat → Nat → Bool) (s : RegState)
    (f : Option (List Nat)) :
    (∀ z, get_current_context sub s f = Except.ok z ↔
        s.classwide.reverse.find? (isinstanceF sub f) = some z) ∧
    (get_current_context sub s f = Except.error Err.noContextError ↔
        ∀ x ∈ s.classwide, isinstanceF sub f x = false) := by
  have hkey : (get_context_stack sub s f).getLast? =
      s.classwide.reverse.find? (isinstanceF sub f) := by
    rw [get_context_stack_eq_filter, filter_getLast?_eq]
  constructor
  · intro z
    unfold get_current_context
    rw [hkey]
    cases hfind : s.classwide.reverse.find? (isinstanceF sub f) with
    | none => simp
    | some w => simp
  · unfold get_current_context
    rw [hkey]
    cases hfind : s.classwide.reverse.find? (isinstanceF sub f) with
    | none =>
      have hall : ∀ x ∈ s.classwide, isinstanceF sub f x = false := by
        intro x hx
        have h2 := List.find?_eq_none.mp hfind x (List.mem_reverse.mpr hx)
        simpa using h2
      exact iff_of_true rfl hall
    | some w =>
      have hpw := List.find?_some hfind
      have hmw := List.mem_reverse.mp (List.mem_of_find?_eq_some hfind)
      constructor
      · intro h
        exact absurd h (by simp)
      · intro hall
        rw [hall w hmw] at hpw
        cases hpw

/-- Witness for C4: with active contexts x : A, y : C, z : B the filter
(A, B) selects z; with x : A, y : C it skips y and selects x; on the fresh
state the unfiltered lookup raises NoContextError. -/
theorem get_current_context_spec_witness :
    get_current_context subEq sXYZ (some [clsA, clsB]) = Except.ok ctxZ ∧
    get_current_context subEq sXY (some [clsA, clsB]) = Except.ok ctxX ∧
    get_current_context subEq RegState.empty none =
      Except.error Err.noContextError :=
  ⟨((get_current_context_spec subEq sXYZ (some [clsA, clsB])).1 ctxZ).mpr
      (by decide),
   ((get_current_context_spec subEq sXY (some [clsA, clsB])).1 ctxX).mpr
      (by decide),
   (get_current_context_spec subEq RegState.empty none).2.mpr
      (by decide)⟩

/-- Claim C10: the filter matches by isinstance, not by exact concrete type: an
active context whose class is a strict subclass of a filter type is kept by
the filtered snapshot, and is returned as the current context for that
filter when it is the most recent match. -/
theorem isinstance_filter_subclass (sub : Nat → Nat → Bool) (s : RegState)
    (ts : List Nat) (x : Ctx) (t : Nat)
    (hx : x ∈ s.classwide) (ht : t ∈ ts) (hsub : sub x.cls t = true)
    (_hstrict : x.cls ≠ t) :
    x ∈ get_context_stack sub s (some ts) ∧
    (s.classwide.getLast? = some x →
      get_current_context sub s (some ts) = Except.ok x) := by
  have hp : (ts.any (fun u => sub x.cls u)) = true :=
    List.any_eq_true.mpr ⟨t, ht, hsub⟩
  constructor
  · exact List.mem_filter.mpr ⟨hx, hp⟩
  · intro hlast
    obtain ⟨cw, hcweq⟩ := List.getLast?_eq_some_iff.mp hlast
    unfold get_current_context
    have hstack : get_context_stack sub s (some ts) =
        cw.filter (fun item => ts.any (fun u => sub item.cls u)) ++ [x] := by
      show s.classwide.filter _ = _
      rw [hcweq, List.filter_append]
      congr 1
      simp [List.filter_cons, hp]
    rw [hstack, List.getLast?_concat]

/-- Witness for C10: w has class D, a strict subclass of A in the hierarchy
subD; with w entered, the filter (A) keeps w in the snapshot and returns it
as the current context. -/
theorem isinstance_filter_subclass_witness :
    ctxW ∈ get_context_stack subD (enterCtx RegState.empty ctxW).1
      (some [clsA]) ∧
    get_current_context subD (enterCtx RegState.empty ctxW).1
      (some [clsA]) = Except.ok ctxW :=
  ⟨(isinstance_filter_subclass subD (enterCtx RegState.empty ctxW).1 [clsA]
      ctxW clsA (by decide) (by decide) (by decide) (by decide)).1,
   (isinstance_filter_subclass subD (enterCtx RegState.empty ctxW).1 [clsA]
      ctxW clsA (by decide) (by decide) (by decide) (by decide)).2
     (by decide)⟩

/-- Claim C8 counterexample: context_stack hands back the live backing list of the
class stack; replacing its contents with the empty list changes the registry
itself, so a subsequent current changes from returning x to raising
NoContextError and the class stack snapshot becomes empty. -/
theorem snapshot_mutation_counterexample :
    readSnapshot (enterCtx RegState.empty ctxX).1 (context_stack_ref clsA) =
      [ctxX] ∧
    current (enterCtx RegState.empty ctxX).1 clsA = Except.ok ctxX ∧
    current (mutateReturned (enterCtx RegState.empty ctxX).1
      (context_stack_ref clsA) []) clsA = Except.error Err.noContextError ∧
    context_stack (mutateReturned (enterCtx RegState.empty ctxX).1
      (context_stack_ref clsA) []) clsA = [] := by
  refine ⟨by decide, rfl, rfl, by decide⟩

/-- Claim C8 amended: only the filtered get_context_stack returns a freshly built
list, whose mutation leaves the registry unchanged; context_stack and the
unfiltered get_context_stack return the live backing list of the per-class
or classwide stack, so mutating the returned sequence rewrites that stack
and is visible to every subsequent query. -/
theorem snapshot_aliasing_amended (sub : Nat → Nat → Bool) (s : RegState)
    (ts : List Nat) (l : List Ctx) (c : Nat) :
    mutateReturned s (get_context_stack_ref sub s (some ts)) l = s ∧
    readSnapshot s (get_context_stack_ref sub s (some ts)) =
      get_context_stack sub s (some ts) ∧
    readSnapshot s (context_stack_ref c) = context_stack s c ∧
    (mutateReturned s (context_stack_ref c) l).perClass c = l ∧
    (mutateReturned s (get_context_stack_ref sub s none) l).classwide = l := by
  refine ⟨rfl, rfl, rfl, ?_, rfl⟩
  simp [mutateReturned, context_stack_ref]

end ScopedCtx
